import Mathlib

/-!
Verification of the per-connection audio round-trip pipeline of
`src/backend/app.py` (FastAPI + Socket.IO voice chatbot backend).

The embedding models:
  * Python `base64.b64encode` / `base64.b64decode` (CPython `binascii.a2b_base64`
    in non-strict mode: invalid characters discarded, padding checked);
  * Python `str.split(",")` and the payload extraction of line 117;
  * the three adapter functions `transcribe_audio`, `get_ai_response`,
    `text_to_speech` with their internal exception handling, the remote calls
    replaced by explicit outcome oracles;
  * the Socket.IO handler `handle_audio` (lines 113-142), returning the ordered
    list of emitted events plus which adapters were invoked.
-/

namespace VoiceChat

/-- The 64-character standard base64 alphabet, index to character. -/
def b64Char (n : Nat) : Char :=
  if n < 26 then Char.ofNat (65 + n)
  else if n < 52 then Char.ofNat (71 + n)
  else if n < 62 then Char.ofNat (n - 4)
  else if n = 62 then '+'
  else '/'

/-- Value of a character in the standard base64 alphabet, `none` otherwise. -/
def b64Val (c : Char) : Option Nat :=
  if 'A' ≤ c ∧ c ≤ 'Z' then some (c.toNat - 65)
  else if 'a' ≤ c ∧ c ≤ 'z' then some (c.toNat - 71)
  else if '0' ≤ c ∧ c ≤ '9' then some (c.toNat + 4)
  else if c = '+' then some 62
  else if c = '/' then some 63
  else none

/-- Core loop of CPython `binascii.a2b_base64` in non-strict mode (what
`base64.b64decode(s)` runs): characters outside the alphabet are discarded,
`=` is counted as padding once at least two data characters of the current
quadruple were seen and terminates the decode when the quadruple is filled,
and leftover data characters at the end (an incomplete quadruple) are an
error (`Incorrect padding`), modelled as `none`.
State: remaining input, position inside the current quadruple (0-3), pending
bits of the previous character, padding characters seen, output so far
(reversed). -/
def a2bAux : List Char → Nat → Nat → Nat → List Nat → Option (List Nat)
  | [], quadPos, _, _, acc =>
      if quadPos = 0 then some acc.reverse else none
  | c :: rest, quadPos, leftchar, pads, acc =>
      if c = '=' then
        if 2 ≤ quadPos then
          if 4 ≤ quadPos + (pads + 1) then some acc.reverse
          else a2bAux rest quadPos leftchar (pads + 1) acc
        else a2bAux rest quadPos leftchar pads acc
      else
        match b64Val c with
        | none => a2bAux rest quadPos leftchar pads acc
        | some v =>
            if quadPos = 0 then a2bAux rest 1 v 0 acc
            else if quadPos = 1 then
              a2bAux rest 2 (v % 16) 0 ((leftchar * 4 + v / 16) :: acc)
            else if quadPos = 2 then
              a2bAux rest 3 (v % 4) 0 ((leftchar * 16 + v / 4) :: acc)
            else a2bAux rest 0 0 0 ((leftchar * 64 + v) :: acc)

/-- Python `base64.b64decode` applied to a `str`: the string is first encoded
as ASCII (a character ≥ U+0080 raises, modelled as `none`), then fed to
`a2b_base64`; `none` is any raised `binascii.Error`/`ValueError`. -/
def b64decode (s : List Char) : Option (List Nat) :=
  if s.all (fun c => c.toNat < 128) then a2bAux s 0 0 0 [] else none

/-- Python `base64.b64encode` on a byte string, as a character list
(`.decode("utf-8")` of line 135 is the identity on this ASCII output). -/
def b64encode : List Nat → List Char
  | b0 :: b1 :: b2 :: rest =>
      b64Char (b0 / 4) :: b64Char (b0 % 4 * 16 + b1 / 16) ::
      b64Char (b1 % 16 * 4 + b2 / 64) :: b64Char (b2 % 64) :: b64encode rest
  | [b0, b1] =>
      [b64Char (b0 / 4), b64Char (b0 % 4 * 16 + b1 / 16), b64Char (b1 % 16 * 4), '=']
  | [b0] => [b64Char (b0 / 4), b64Char (b0 % 4 * 16), '=', '=']
  | [] => []

/-- Python `str.split(sep)` for a one-character separator: splits at every
occurrence, keeping empty fields; `"".split(",") = [""]`. -/
def pySplit (sep : Char) : List Char → List (List Char)
  | [] => [[]]
  | c :: rest =>
      if c = sep then [] :: pySplit sep rest
      else
        match pySplit sep rest with
        | h :: t => (c :: h) :: t
        | [] => [[c]]

/-- Line 117: `audio_base64 = data.split(",")[1] if "," in data else data`.
When a comma is present the split has at least two fields, so the Python
index `[1]` is total; `getD` is used with the same value. -/
def extractB64 (data : List Char) : List Char :=
  if ',' ∈ data then (pySplit ',' data).getD 1 [] else data

/-- Outcome of one remote service call: a returned value, or a raised
exception. -/
inductive CallResult (α : Type) where
  | ok (val : α)
  | raise
deriving DecidableEq

/-- Operations on the scratch file staged for the transcription call. -/
inductive FileOp where
  | create
  | unlink
deriving DecidableEq

/-- Whether the scratch file exists after a trace of file operations. -/
def scratchAfter (ops : List FileOp) : Bool :=
  ops.foldl (fun _ op => match op with | FileOp.create => true | FileOp.unlink => false) false

/-- Lines 40-74, `transcribe_audio`: returns the transcript (or `""` on any
failure) together with the trace of scratch-file operations.
  * `groqConfigured = false` (no `GROQ_API_KEY`): returns `""` at line 46,
    no file is touched.
  * otherwise `NamedTemporaryFile(suffix=".wav", delete=False)` creates the
    file; `writeOk = false` models `temp_wav.write` raising: the `with`
    block only closes the handle (`delete=False`), the inner `try/finally`
    of lines 54-70 was never entered, so the outer `except` of line 72
    returns `""` with the file still on disk.
  * with the write done, the remote call either returns text (line 65) or
    raises (line 72 returns `""`); the `finally` of lines 67-70 unlinks the
    file on both of these paths. -/
def transcribe_audio (groqConfigured writeOk : Bool) (call : CallResult String) :
    String × List FileOp :=
  if groqConfigured = false then ("", [])
  else if writeOk = false then ("", [FileOp.create])
  else
    match call with
    | CallResult.ok t => (t, [FileOp.create, FileOp.unlink])
    | CallResult.raise => ("", [FileOp.create, FileOp.unlink])

/-- Lines 76-85, `get_ai_response`: returns the model reply, or the fixed
fallback string when `llm.invoke` raises. -/
def get_ai_response (call : String → CallResult String) (user_text : String) : String :=
  match call user_text with
  | CallResult.ok t => t
  | CallResult.raise => "I couldn't process that request."

/-- Lines 88-102, `text_to_speech`: returns the synthesized bytes, or `None`
(modelled `none`) when the call raises. -/
def text_to_speech (call : String → CallResult (List Nat)) (text : String) :
    Option (List Nat) :=
  match call text with
  | CallResult.ok bs => some bs
  | CallResult.raise => none

/-- Python truthiness of the `audio_data` value at line 134: `None` and the
empty byte string are falsy, non-empty bytes are truthy. -/
def pyTruthyBytes : Option (List Nat) → Bool
  | none => false
  | some bs => !bs.isEmpty

/-- The external environment of one `audio` event: configuration plus the
behaviour of the three remote services on each input. -/
structure Env where
  groqConfigured : Bool
  writeOk : Bool
  transcribeCall : List Nat → CallResult String
  chatCall : String → CallResult String
  ttsCall : String → CallResult (List Nat)

/-- An outbound Socket.IO event emitted to the client. -/
inductive Event where
  | transcription (text : String)
  | ai_response (text : String)
  | audio_response (b64 : List Char)
  | error (msg : String)
deriving DecidableEq

/-- Result of one `handle_audio` invocation: the emitted events in order,
which adapter functions were invoked, and the input text passed to the
synthesis adapter (when it was invoked). -/
structure Outcome where
  events : List Event
  transcribeInvoked : Bool
  chatInvoked : Bool
  ttsInvoked : Bool
  ttsInput : Option String
deriving DecidableEq

/-- Lines 120-138 of `handle_audio`, after a successful base64 decode. -/
def handle_audio_decoded (env : Env) (audio_bytes : List Nat) : Outcome :=
  let transcribed_text :=
    (transcribe_audio env.groqConfigured env.writeOk (env.transcribeCall audio_bytes)).1
  if transcribed_text = "" then
    { events := [Event.error "Failed to transcribe audio"],
      transcribeInvoked := true, chatInvoked := false, ttsInvoked := false,
      ttsInput := none }
  else
    let ai_response := get_ai_response env.chatCall transcribed_text
    let audio_data := text_to_speech env.ttsCall ai_response
    if pyTruthyBytes audio_data then
      { events := [Event.transcription transcribed_text,
                   Event.ai_response ai_response,
                   Event.audio_response (b64encode (audio_data.getD []))],
        transcribeInvoked := true, chatInvoked := true, ttsInvoked := true,
        ttsInput := some ai_response }
    else
      { events := [Event.transcription transcribed_text,
                   Event.ai_response ai_response,
                   Event.error "Failed to generate audio response"],
        transcribeInvoked := true, chatInvoked := true, ttsInvoked := true,
        ttsInput := some ai_response }

/-- Lines 113-142, `handle_audio`: decode the payload (lines 117-118), then
run the pipeline; any exception escaping a stage — in this model only the
decode (`b64decode` raising) — is caught by the `except` of lines 140-142
and converted to the generic error event. -/
def handle_audio (env : Env) (data : List Char) : Outcome :=
  match b64decode (extractB64 data) with
  | none =>
      { events := [Event.error "An error occurred processing your request"],
        transcribeInvoked := false, chatInvoked := false, ttsInvoked := false,
        ttsInput := none }
  | some audio_bytes => handle_audio_decoded env audio_bytes

/-- Modelled from the spec (for comparison with the code): the suffix of the
payload strictly after the first occurrence of the separator comma. -/
def suffixAfterFirstComma : List Char → List Char
  | [] => []
  | c :: rest => if c = ',' then rest else suffixAfterFirstComma rest

/-- The longest prefix of a string containing no comma (everything before
the first comma). -/
def beforeFirstComma : List Char → List Char
  | [] => []
  | c :: rest => if c = ',' then [] else c :: beforeFirstComma rest

/-! ### Base64 lemmas -/

/-- Joint specification of the alphabet table: decoding inverts encoding, and
every alphabet character is ASCII, not a comma and not the padding char. -/
theorem b64Char_spec : ∀ m : Fin 64,
    b64Val (b64Char m.val) = some m.val ∧ b64Char m.val ≠ '=' ∧
    b64Char m.val ≠ ',' ∧ (b64Char m.val).toNat < 128 := by decide

theorem b64Val_b64Char (n : Nat) (h : n < 64) : b64Val (b64Char n) = some n :=
  (b64Char_spec ⟨n, h⟩).1

theorem b64Char_ne_pad (n : Nat) (h : n < 64) : b64Char n ≠ '=' :=
  (b64Char_spec ⟨n, h⟩).2.1

theorem b64Char_ne_comma (n : Nat) (h : n < 64) : b64Char n ≠ ',' :=
  (b64Char_spec ⟨n, h⟩).2.2.1

theorem b64Char_ascii (n : Nat) (h : n < 64) : (b64Char n).toNat < 128 :=
  (b64Char_spec ⟨n, h⟩).2.2.2

/-- One decoder step on an alphabet character. -/
theorem a2bAux_data {c : Char} {v : Nat} (hv : b64Val c = some v) (hne : c ≠ '=')
    (rest : List Char) (qp lc pads : Nat) (acc : List Nat) :
    a2bAux (c :: rest) qp lc pads acc =
      if qp = 0 then a2bAux rest 1 v 0 acc
      else if qp = 1 then a2bAux rest 2 (v % 16) 0 ((lc * 4 + v / 16) :: acc)
      else if qp = 2 then a2bAux rest 3 (v % 4) 0 ((lc * 16 + v / 4) :: acc)
      else a2bAux rest 0 0 0 ((lc * 64 + v) :: acc) := by
  simp [a2bAux, hne, hv]

/-- One decoder step on the padding character. -/
theorem a2bAux_pad (rest : List Char) (qp lc pads : Nat) (acc : List Nat) :
    a2bAux ('=' :: rest) qp lc pads acc =
      if 2 ≤ qp then
        if 4 ≤ qp + (pads + 1) then some acc.reverse
        else a2bAux rest qp lc (pads + 1) acc
      else a2bAux rest qp lc pads acc := by
  simp [a2bAux]

/-- The decoder inverts the encoder, for any starting accumulator. -/
theorem b64_roundtrip : ∀ (b : List Nat), (∀ x ∈ b, x < 256) →
    ∀ acc : List Nat, a2bAux (b64encode b) 0 0 0 acc = some (acc.reverse ++ b)
  | [], _, acc => by simp [b64encode, a2bAux]
  | [b0], h, acc => by
      have hb0 : b0 < 256 := h b0 (by simp)
      have h1 : b0 / 4 < 64 := by omega
      have h2 : b0 % 4 * 16 < 64 := by omega
      rw [b64encode, a2bAux_data (b64Val_b64Char _ h1) (b64Char_ne_pad _ h1)]
      norm_num
      rw [a2bAux_data (b64Val_b64Char _ h2) (b64Char_ne_pad _ h2)]
      norm_num
      rw [a2bAux_pad]
      norm_num
      rw [a2bAux_pad]
      norm_num
      omega
  | [b0, b1], h, acc => by
      have hb0 : b0 < 256 := h b0 (by simp)
      have hb1 : b1 < 256 := h b1 (by simp)
      have h1 : b0 / 4 < 64 := by omega
      have h2 : b0 % 4 * 16 + b1 / 16 < 64 := by omega
      have h3 : b1 % 16 * 4 < 64 := by omega
      rw [b64encode, a2bAux_data (b64Val_b64Char _ h1) (b64Char_ne_pad _ h1)]
      norm_num
      rw [a2bAux_data (b64Val_b64Char _ h2) (b64Char_ne_pad _ h2)]
      norm_num
      rw [a2bAux_data (b64Val_b64Char _ h3) (b64Char_ne_pad _ h3)]
      norm_num
      rw [a2bAux_pad]
      norm_num
      omega
  | b0 :: b1 :: b2 :: rest, h, acc => by
      have hb0 : b0 < 256 := h b0 (by simp)
      have hb1 : b1 < 256 := h b1 (by simp)
      have hb2 : b2 < 256 := h b2 (by simp)
      have h1 : b0 / 4 < 64 := by omega
      have h2 : b0 % 4 * 16 + b1 / 16 < 64 := by omega
      have h3 : b1 % 16 * 4 + b2 / 64 < 64 := by omega
      have h4 : b2 % 64 < 64 := by omega
      rw [b64encode, a2bAux_data (b64Val_b64Char _ h1) (b64Char_ne_pad _ h1)]
      norm_num
      rw [a2bAux_data (b64Val_b64Char _ h2) (b64Char_ne_pad _ h2)]
      norm_num
      rw [a2bAux_data (b64Val_b64Char _ h3) (b64Char_ne_pad _ h3)]
      norm_num
      rw [a2bAux_data (b64Val_b64Char _ h4) (b64Char_ne_pad _ h4)]
      norm_num
      rw [b64_roundtrip rest (fun x hx => h x (by simp [hx]))]
      simp only [Option.some.injEq, List.reverse_cons, List.append_assoc,
        List.cons_append, List.nil_append, List.append_cancel_left_eq,
        List.cons.injEq, and_true]
      omega

/-- Every character emitted by the encoder is ASCII and is not a comma. -/
theorem b64encode_mem : ∀ (b : List Nat), (∀ x ∈ b, x < 256) →
    ∀ c ∈ b64encode b, c ≠ ',' ∧ c.toNat < 128
  | [], _, c, hc => by simp [b64encode] at hc
  | [b0], h, c, hc => by
      have hb0 : b0 < 256 := h b0 (by simp)
      have h1 : b0 / 4 < 64 := by omega
      have h2 : b0 % 4 * 16 < 64 := by omega
      simp only [b64encode, List.mem_cons, List.not_mem_nil, or_false] at hc
      rcases hc with rfl | rfl | rfl | rfl
      · exact ⟨b64Char_ne_comma _ h1, b64Char_ascii _ h1⟩
      · exact ⟨b64Char_ne_comma _ h2, b64Char_ascii _ h2⟩
      · exact ⟨by decide, by decide⟩
      · exact ⟨by decide, by decide⟩
  | [b0, b1], h, c, hc => by
      have hb0 : b0 < 256 := h b0 (by simp)
      have hb1 : b1 < 256 := h b1 (by simp)
      have h1 : b0 / 4 < 64 := by omega
      have h2 : b0 % 4 * 16 + b1 / 16 < 64 := by omega
      have h3 : b1 % 16 * 4 < 64 := by omega
      simp only [b64encode, List.mem_cons, List.not_mem_nil, or_false] at hc
      rcases hc with rfl | rfl | rfl | rfl
      · exact ⟨b64Char_ne_comma _ h1, b64Char_ascii _ h1⟩
      · exact ⟨b64Char_ne_comma _ h2, b64Char_ascii _ h2⟩
      · exact ⟨b64Char_ne_comma _ h3, b64Char_ascii _ h3⟩
      · exact ⟨by decide, by decide⟩
  | b0 :: b1 :: b2 :: rest, h, c, hc => by
      have hb0 : b0 < 256 := h b0 (by simp)
      have hb1 : b1 < 256 := h b1 (by simp)
      have hb2 : b2 < 256 := h b2 (by simp)
      have h1 : b0 / 4 < 64 := by omega
      have h2 : b0 % 4 * 16 + b1 / 16 < 64 := by omega
      have h3 : b1 % 16 * 4 + b2 / 64 < 64 := by omega
      have h4 : b2 % 64 < 64 := by omega
      simp only [b64encode, List.mem_cons] at hc
      rcases hc with rfl | rfl | rfl | rfl | hc
      · exact ⟨b64Char_ne_comma _ h1, b64Char_ascii _ h1⟩
      · exact ⟨b64Char_ne_comma _ h2, b64Char_ascii _ h2⟩
      · exact ⟨b64Char_ne_comma _ h3, b64Char_ascii _ h3⟩
      · exact ⟨b64Char_ne_comma _ h4, b64Char_ascii _ h4⟩
      · exact b64encode_mem rest (fun x hx => h x (by simp [hx])) c hc

/-- The decode of a full encode recovers the bytes. -/
theorem b64decode_encode (b : List Nat) (h : ∀ x ∈ b, x < 256) :
    b64decode (b64encode b) = some b := by
  have hascii : (b64encode b).all (fun c => c.toNat < 128) = true := by
    simp only [List.all_eq_true, decide_eq_true_eq]
    exact fun c hc => (b64encode_mem b h c hc).2
  simp only [b64decode, if_pos hascii, b64_roundtrip b h [], List.reverse_nil,
    List.nil_append]

/-! ### Lemmas about the payload extraction of line 117 -/

theorem pySplit_ne_nil (sep : Char) : ∀ l : List Char, pySplit sep l ≠ []
  | [] => by simp [pySplit]
  | c :: rest => by
      by_cases hc : c = sep
      · simp [pySplit, hc]
      · simp only [pySplit, if_neg hc]
        cases hsplit : pySplit sep rest with
        | nil => simp
        | cons h t => simp

/-- With no separator in the string, `split` returns the whole string as the
single field. -/
theorem pySplit_no_sep (sep : Char) : ∀ l : List Char, sep ∉ l → pySplit sep l = [l]
  | [], _ => rfl
  | c :: rest, h => by
      have hc : ¬c = sep := fun e => h (by simp [e])
      have hr : sep ∉ rest := fun m => h (List.mem_cons_of_mem _ m)
      simp only [pySplit, if_neg hc, pySplit_no_sep sep rest hr]

/-- Splitting a string whose first separator occurrence follows the prefix
`xs` yields `xs` as the first field. -/
theorem pySplit_append (sep : Char) : ∀ (xs ys : List Char), sep ∉ xs →
    pySplit sep (xs ++ sep :: ys) = xs :: pySplit sep ys
  | [], ys, _ => by simp [pySplit]
  | x :: xs, ys, h => by
      have hx : ¬x = sep := fun e => h (by simp [e])
      have hxs : sep ∉ xs := fun m => h (List.mem_cons_of_mem _ m)
      simp only [List.cons_append, pySplit, if_neg hx, List.append_eq,
        pySplit_append sep xs ys hxs]

/-- A payload without a comma is passed to the decoder unchanged. -/
theorem extractB64_no_comma (data : List Char) (h : ',' ∉ data) :
    extractB64 data = data := by
  simp [extractB64, h]

/-- A payload of the form `header ++ "," ++ s` with comma-free `header` and
`s` yields exactly `s`. -/
theorem extractB64_prefixed (header s : List Char) (hh : ',' ∉ header)
    (hs : ',' ∉ s) : extractB64 (header ++ ',' :: s) = s := by
  have hmem : ',' ∈ header ++ ',' :: s := by simp
  simp only [extractB64, if_pos hmem, pySplit_append ',' header s hh,
    pySplit_no_sep ',' s hs]
  rfl

/-- The first field of the split is everything before the first comma. -/
theorem pySplit_getD_zero : ∀ l : List Char,
    (pySplit ',' l).getD 0 [] = beforeFirstComma l
  | [] => rfl
  | c :: rest => by
      by_cases hc : c = ','
      · subst hc
        simp [pySplit, beforeFirstComma]
      · simp only [pySplit, beforeFirstComma, if_neg hc]
        cases hsplit : pySplit ',' rest with
        | nil => exact absurd hsplit (pySplit_ne_nil ',' rest)
        | cons h t =>
            have ih := pySplit_getD_zero rest
            rw [hsplit] at ih
            simp only [List.getD_cons_zero] at ih ⊢
            rw [ih]

/-- What line 117 extracts from a payload containing a comma: the segment
strictly between the first comma and the second comma (to the end of the
payload when there is no second comma). -/
theorem extractB64_between : ∀ data : List Char, ',' ∈ data →
    extractB64 data = beforeFirstComma (suffixAfterFirstComma data)
  | [], h => absurd h (by simp)
  | c :: rest, h => by
      by_cases hc : c = ','
      · subst hc
        simp only [extractB64, if_pos h, pySplit, if_pos rfl,
          suffixAfterFirstComma, if_pos rfl, List.getD_cons_succ,
          List.getD_cons_zero]
        exact pySplit_getD_zero rest
      · have hrest : ',' ∈ rest := by
          rcases List.mem_cons.mp h with e | m
          · exact absurd e.symm hc
          · exact m
        simp only [extractB64, if_pos h, pySplit, if_neg hc,
          suffixAfterFirstComma, if_neg hc]
        cases hsplit : pySplit ',' rest with
        | nil => exact absurd hsplit (pySplit_ne_nil ',' rest)
        | cons hh tt =>
            have ih := extractB64_between rest hrest
            simp only [extractB64, if_pos hrest, hsplit] at ih
            simpa using ih

/-! ### Claim theorems -/

/-- Claim C1: when the transcription adapter returns an empty string, the
round trip halts after emitting exactly one error event with message
"Failed to transcribe audio"; the chat and synthesis adapters are not
invoked and no transcription, ai_response or audio_response event is
emitted. -/
theorem claim_C1 (env : Env) (data : List Char) (bytes : List Nat)
    (hdec : b64decode (extractB64 data) = some bytes)
    (hempty :
      (transcribe_audio env.groqConfigured env.writeOk (env.transcribeCall bytes)).1 = "") :
    handle_audio env data =
      { events := [Event.error "Failed to transcribe audio"],
        transcribeInvoked := true, chatInvoked := false, ttsInvoked := false,
        ttsInput := none } := by
  simp [handle_audio, hdec, handle_audio_decoded, hempty]

theorem claim_C1_witness :
    handle_audio
        ⟨false, true, fun _ => CallResult.ok "hello", fun _ => CallResult.ok "hi",
          fun _ => CallResult.ok [1]⟩ "AAAA".data =
      { events := [Event.error "Failed to transcribe audio"],
        transcribeInvoked := true, chatInvoked := false, ttsInvoked := false,
        ttsInput := none } :=
  claim_C1 _ _ [0, 0, 0] (by decide) (by decide)

/-- Claim C2: when the chat adapter raises, the pipeline still emits an
ai_response event carrying exactly the fixed fallback string, and the
synthesis adapter is invoked with that fallback text as its input; the chat
failure does not halt the round trip. -/
theorem claim_C2 (env : Env) (data : List Char) (bytes : List Nat)
    (hdec : b64decode (extractB64 data) = some bytes)
    (htr :
      (transcribe_audio env.groqConfigured env.writeOk (env.transcribeCall bytes)).1 ≠ "")
    (hchat : env.chatCall
        (transcribe_audio env.groqConfigured env.writeOk (env.transcribeCall bytes)).1 =
      CallResult.raise) :
    (handle_audio env data).events[1]? =
        some (Event.ai_response "I couldn't process that request.") ∧
    (handle_audio env data).ttsInvoked = true ∧
    (handle_audio env data).ttsInput = some "I couldn't process that request." := by
  have hai : get_ai_response env.chatCall
      (transcribe_audio env.groqConfigured env.writeOk (env.transcribeCall bytes)).1 =
      "I couldn't process that request." := by
    simp [get_ai_response, hchat]
  simp only [handle_audio, hdec, handle_audio_decoded, if_neg htr, hai]
  split <;> simp

theorem claim_C2_witness :
    (handle_audio
        ⟨true, true, fun _ => CallResult.ok "hello", fun _ => CallResult.raise,
          fun _ => CallResult.ok [1, 2, 3]⟩ "AAAA".data).events[1]? =
        some (Event.ai_response "I couldn't process that request.") ∧
    (handle_audio
        ⟨true, true, fun _ => CallResult.ok "hello", fun _ => CallResult.raise,
          fun _ => CallResult.ok [1, 2, 3]⟩ "AAAA".data).ttsInvoked = true ∧
    (handle_audio
        ⟨true, true, fun _ => CallResult.ok "hello", fun _ => CallResult.raise,
          fun _ => CallResult.ok [1, 2, 3]⟩ "AAAA".data).ttsInput =
        some "I couldn't process that request." :=
  claim_C2 _ _ [0, 0, 0] (by decide) (by decide) (by decide)

/-- Claim C3: when transcription succeeds but the synthesis adapter yields no
usable audio, the emitted sequence is exactly transcription, then
ai_response, then the single error event "Failed to generate audio
response", so both success events precede the error and the order
transcription, reply, audio is preserved. -/
theorem claim_C3 (env : Env) (data : List Char) (bytes : List Nat)
    (hdec : b64decode (extractB64 data) = some bytes)
    (htr :
      (transcribe_audio env.groqConfigured env.writeOk (env.transcribeCall bytes)).1 ≠ "")
    (hsy : pyTruthyBytes (text_to_speech env.ttsCall (get_ai_response env.chatCall
        (transcribe_audio env.groqConfigured env.writeOk (env.transcribeCall bytes)).1)) =
      false) :
    (handle_audio env data).events =
      [Event.transcription
          (transcribe_audio env.groqConfigured env.writeOk (env.transcribeCall bytes)).1,
        Event.ai_response (get_ai_response env.chatCall
          (transcribe_audio env.groqConfigured env.writeOk (env.transcribeCall bytes)).1),
        Event.error "Failed to generate audio response"] := by
  simp only [handle_audio, hdec, handle_audio_decoded, if_neg htr, hsy]
  simp

theorem claim_C3_witness :
    (handle_audio
        ⟨true, true, fun _ => CallResult.ok "hello", fun _ => CallResult.ok "hi",
          fun _ => CallResult.raise⟩ "AAAA".data).events =
      [Event.transcription "hello", Event.ai_response "hi",
        Event.error "Failed to generate audio response"] :=
  claim_C3 _ _ [0, 0, 0] (by decide) (by decide) (by decide)

/-- Claim C4: for every byte string and every comma-free data-URI header, the
decode step yields the original bytes both on the bare base64 payload and on
the header-prefixed payload. -/
theorem claim_C4 (b : List Nat) (hb : ∀ x ∈ b, x < 256) (header : List Char)
    (hh : ',' ∉ header) :
    b64decode (extractB64 (b64encode b)) = some b ∧
    b64decode (extractB64 (header ++ ',' :: b64encode b)) = some b := by
  have hs : ',' ∉ b64encode b := fun m => (b64encode_mem b hb _ m).1 rfl
  constructor
  · rw [extractB64_no_comma _ hs, b64decode_encode b hb]
  · rw [extractB64_prefixed header _ hh hs, b64decode_encode b hb]

theorem claim_C4_witness :
    b64decode (extractB64 (b64encode [1, 2, 3])) = some [1, 2, 3] ∧
    b64decode (extractB64 ("data:audio/wav;base64".data ++ ',' :: b64encode [1, 2, 3])) =
      some [1, 2, 3] :=
  claim_C4 [1, 2, 3] (by decide) "data:audio/wav;base64".data (by decide)

/-- Claim C5, counterexample: on the payload "a,b,c" the code passes "b"
(the field between the first and second comma) to the decoder, not the
suffix "b,c" after the first comma as the claim states. -/
theorem claim_C5_counterexample :
    extractB64 "a,b,c".data = "b".data ∧
    suffixAfterFirstComma "a,b,c".data = "b,c".data ∧
    extractB64 "a,b,c".data ≠ suffixAfterFirstComma "a,b,c".data := by decide

/-- Claim C5, amended: for a payload containing a comma, the string passed to
base64 decoding is the segment strictly between the first comma and the
second comma (up to the end of the payload when there is no second comma);
a payload without a comma is passed unchanged. -/
theorem claim_C5_amended_thm :
    (∀ data : List Char, ',' ∈ data →
      extractB64 data = beforeFirstComma (suffixAfterFirstComma data)) ∧
    ∀ data : List Char, ',' ∉ data → extractB64 data = data :=
  ⟨extractB64_between, extractB64_no_comma⟩

theorem claim_C5_witness :
    extractB64 "a,b,c".data =
      beforeFirstComma (suffixAfterFirstComma "a,b,c".data) ∧
    extractB64 "AAAA".data = "AAAA".data :=
  ⟨claim_C5_amended_thm.1 "a,b,c".data (by decide),
   claim_C5_amended_thm.2 "AAAA".data (by decide)⟩

/-- Claim C6: when the payload fails base64 decoding, the handler emits
exactly one error event (via the top-level exception handler, with the
generic message) and none of the three adapters is invoked. -/
theorem claim_C6 (env : Env) (data : List Char)
    (hdec : b64decode (extractB64 data) = none) :
    handle_audio env data =
      { events := [Event.error "An error occurred processing your request"],
        transcribeInvoked := false, chatInvoked := false, ttsInvoked := false,
        ttsInput := none } := by
  simp [handle_audio, hdec]

theorem claim_C6_witness :
    handle_audio
        ⟨true, true, fun _ => CallResult.ok "x", fun _ => CallResult.ok "y",
          fun _ => CallResult.ok [1]⟩ "A".data =
      { events := [Event.error "An error occurred processing your request"],
        transcribeInvoked := false, chatInvoked := false, ttsInvoked := false,
        ttsInput := none } :=
  claim_C6 _ "A".data (by decide)

/-- Claim C7, counterexample: in the stubbed end-to-end success scenario the
handler emits exactly three events, not four as the claim states. -/
theorem claim_C7_counterexample :
    ((handle_audio
        ⟨true, true, fun _ => CallResult.ok "hello", fun _ => CallResult.ok "hi there",
          fun _ => CallResult.ok [1, 2, 3]⟩
        "data:audio/wav;base64,AAAA".data).events).length = 3 ∧
    ((handle_audio
        ⟨true, true, fun _ => CallResult.ok "hello", fun _ => CallResult.ok "hi there",
          fun _ => CallResult.ok [1, 2, 3]⟩
        "data:audio/wav;base64,AAAA".data).events).length ≠ 4 := by decide

/-- Claim C7, amended: in the stubbed end-to-end success scenario the handler
emits exactly three events, in order transcription "hello", ai_response
"hi there", audio_response with the base64 encoding of the bytes 1, 2, 3,
and zero error events. -/
theorem claim_C7_amended_thm :
    (handle_audio
        ⟨true, true, fun _ => CallResult.ok "hello", fun _ => CallResult.ok "hi there",
          fun _ => CallResult.ok [1, 2, 3]⟩
        "data:audio/wav;base64,AAAA".data).events =
      [Event.transcription "hello", Event.ai_response "hi there",
        Event.audio_response (b64encode [1, 2, 3])] := by decide

/-- Claim C8: every audio event terminates with at least one emitted event;
an exception escaping a pipeline stage (here: the base64 decode) is caught
at the top level and becomes the single generic error event, whose wording
differs from both stage-specific error messages. -/
theorem claim_C8 : ∀ (env : Env) (data : List Char),
    (handle_audio env data).events ≠ [] ∧
    (b64decode (extractB64 data) = none →
      (handle_audio env data).events =
        [Event.error "An error occurred processing your request"]) ∧
    "An error occurred processing your request" ≠ "Failed to transcribe audio" ∧
    "An error occurred processing your request" ≠ "Failed to generate audio response" := by
  intro env data
  refine ⟨?_, fun h => by simp [handle_audio, h], by decide, by decide⟩
  simp only [handle_audio]
  cases hd : b64decode (extractB64 data) with
  | none => simp
  | some bytes =>
      simp only [handle_audio_decoded]
      split
      · simp
      · split <;> simp

theorem claim_C8_witness :
    (handle_audio
        ⟨false, true, fun _ => CallResult.ok "", fun _ => CallResult.ok "",
          fun _ => CallResult.ok []⟩ "A".data).events =
      [Event.error "An error occurred processing your request"] :=
  (claim_C8
    ⟨false, true, fun _ => CallResult.ok "", fun _ => CallResult.ok "",
      fun _ => CallResult.ok []⟩ "A".data).2.1 (by decide)

/-- Claim C9, counterexample: on the exit path where the staging write to the
scratch file raises (after the file was created with delete set to False),
the outer exception handler returns the empty transcript but the scratch
file is left on disk, so deletion on every exit path fails. -/
theorem claim_C9_counterexample :
    scratchAfter (transcribe_audio true false (CallResult.ok "hello")).2 = true := by
  decide

/-- Claim C9, amended: on every exit path of the transcription adapter on
which the staging write completed (success of the remote call, failure of
the remote call, or the adapter disabled with no file created), the scratch
file is deleted before the adapter returns; when the staging write itself
raises, the scratch file persists. -/
theorem claim_C9_amended_thm :
    (∀ (groqConfigured : Bool) (call : CallResult String),
      scratchAfter (transcribe_audio groqConfigured true call).2 = false) ∧
    ∀ call : CallResult String,
      scratchAfter (transcribe_audio true false call).2 = true := by
  constructor
  · intro g call
    cases g <;> cases call <;> rfl
  · intro call
    rfl

/-- Claim C10: a synthesis result of an empty byte string is treated exactly
like a synthesis failure — the error event "Failed to generate audio
response" is emitted and no audio_response event occurs; moreover
audio_response events only ever carry the encoding of a non-empty byte
string. -/
theorem claim_C10 (env : Env) (data : List Char) (bytes : List Nat)
    (hdec : b64decode (extractB64 data) = some bytes)
    (htr :
      (transcribe_audio env.groqConfigured env.writeOk (env.transcribeCall bytes)).1 ≠ "")
    (hsy : env.ttsCall (get_ai_response env.chatCall
        (transcribe_audio env.groqConfigured env.writeOk (env.transcribeCall bytes)).1) =
      CallResult.ok []) :
    (handle_audio env data).events =
      [Event.transcription
          (transcribe_audio env.groqConfigured env.writeOk (env.transcribeCall bytes)).1,
        Event.ai_response (get_ai_response env.chatCall
          (transcribe_audio env.groqConfigured env.writeOk (env.transcribeCall bytes)).1),
        Event.error "Failed to generate audio response"] ∧
    ∀ (envA : Env) (dataA : List Char) (s : List Char),
      Event.audio_response s ∈ (handle_audio envA dataA).events →
        ∃ bs : List Nat, bs ≠ [] ∧ s = b64encode bs := by
  constructor
  · have hfalse : pyTruthyBytes (text_to_speech env.ttsCall (get_ai_response env.chatCall
        (transcribe_audio env.groqConfigured env.writeOk (env.transcribeCall bytes)).1)) =
        false := by
      simp [text_to_speech, hsy, pyTruthyBytes]
    simp only [handle_audio, hdec, handle_audio_decoded, if_neg htr, hfalse]
    simp
  · intro envA dataA s hmem
    simp only [handle_audio] at hmem
    cases hd : b64decode (extractB64 dataA) with
    | none => simp [hd] at hmem
    | some bytesA =>
        simp only [hd, handle_audio_decoded] at hmem
        by_cases htrA :
            (transcribe_audio envA.groqConfigured envA.writeOk
              (envA.transcribeCall bytesA)).1 = ""
        · simp [htrA] at hmem
        · simp only [if_neg htrA] at hmem
          cases hcall : envA.ttsCall (get_ai_response envA.chatCall
              (transcribe_audio envA.groqConfigured envA.writeOk
                (envA.transcribeCall bytesA)).1) with
          | raise => simp [text_to_speech, hcall, pyTruthyBytes] at hmem
          | ok bs =>
              by_cases hbs : bs = []
              · subst hbs
                simp [text_to_speech, hcall, pyTruthyBytes] at hmem
              · refine ⟨bs, hbs, ?_⟩
                simp [text_to_speech, hcall, pyTruthyBytes, hbs] at hmem
                exact hmem

theorem claim_C10_witness :
    (handle_audio
        ⟨true, true, fun _ => CallResult.ok "hello", fun _ => CallResult.ok "hi",
          fun _ => CallResult.ok []⟩ "AAAA".data).events =
      [Event.transcription "hello", Event.ai_response "hi",
        Event.error "Failed to generate audio response"] :=
  (claim_C10
    ⟨true, true, fun _ => CallResult.ok "hello", fun _ => CallResult.ok "hi",
      fun _ => CallResult.ok []⟩ "AAAA".data [0, 0, 0]
    (by decide) (by decide) (by decide)).1

end VoiceChat
